import Mathlib

/-!
Verification of the ssm-ssh-connect tool (src/main.go) against its
natural-language specification.

The Go program is embedded shallowly:

* `Config` mirrors the Go struct `Config` (main.go lines 21-29), including
  which fields carry a json tag (`region`, `instance_id`, `instance_az`)
  and which are excluded from serialization via the tag `-`.
* JSON values are modelled by `JVal`; `unmarshalConfig` follows the
  documented semantics of Go encoding/json `Unmarshal` for this struct:
  a syntactically invalid document produces an error and no mutation
  (Unmarshal scans the whole input first); a valid document is decoded
  field by field, a type-mismatched field is skipped while decoding
  continues, and the first such mismatch is reported as a non-nil error;
  a JSON null has no effect and produces no error; for duplicate keys the
  later occurrence wins.  Time is modelled in seconds as `Int`.
* `loadCache` / `saveCache` embed main.go lines 171-203 / 150-169.
* `getInstanceDetails` embeds main.go lines 221-248; Go slicing
  `az[:len(az)-1]` is modelled by `goDropLastByte`, which panics (returns
  `none` through `ResolveOut.panicked`) exactly when the string is empty,
  as the Go slice expression does.  Availability-zone strings are ASCII,
  where Go byte indexing and character indexing coincide.
* The lock-file protocol (main.go lines 113-131) is modelled as explicit
  state passing over `Option Int` (the mtime of the lock token, `none`
  when no token file exists), with `staleCheck` for lines 114-117 and
  `exclCreate` for the O_EXCL|O_CREATE open on line 119.
* `startSSMSessionWithPlugin` embeds main.go lines 285-369 at the level
  of observable events; `findPluginPath` embeds the candidate scan on
  lines 328-344, with `statExists` modelling that os.Stat resolves a
  relative path against the working directory, not the executable
  search path.
* `mainTail` and `mainFlow` embed the control flow of `main`
  (lines 85-148): the cache/resolve stage, the lock stage, the optional
  key push, the session bootstrap, and the two release paths (the
  deferred removal, which Go runs when `main` returns, and the
  50-second background removal).
-/

/-- Embedding of the Go struct `Config` (main.go lines 21-29).  The json
tags are: AppHome `-`, AwsProfile `-`, Region `region`, InstanceName `-`,
InstanceID `instance_id`, InstanceAZ `instance_az`, InstanceUser `-`. -/
structure Config where
  AppHome : String
  AwsProfile : String
  Region : String
  InstanceName : String
  InstanceID : String
  InstanceAZ : String
  InstanceUser : String
deriving DecidableEq, Repr

/-- A JSON value, as far as decoding into `Config` can observe it.
`other` stands for any further valid JSON value (array, boolean, number
with fraction, ...): every such value is type-incompatible with the
string fields of `Config` and is treated uniformly by the decoder. -/
inductive JVal where
  | str (s : String)
  | num (n : Int)
  | null
  | obj (fields : List (String × JVal))
  | other
deriving Repr

/-- Decoding state while unmarshalling one JSON object into `Config`:
the configuration built so far and whether a type error was recorded. -/
def decodeField (acc : Config × Bool) (kv : String × JVal) : Config × Bool :=
  match kv with
  | (k, v) =>
    if k == "region" then
      match v with
      | .str s => ({ acc.1 with Region := s }, acc.2)
      | .null => acc
      | _ => (acc.1, true)
    else if k == "instance_id" then
      match v with
      | .str s => ({ acc.1 with InstanceID := s }, acc.2)
      | .null => acc
      | _ => (acc.1, true)
    else if k == "instance_az" then
      match v with
      | .str s => ({ acc.1 with InstanceAZ := s }, acc.2)
      | .null => acc
      | _ => (acc.1, true)
    else
      acc

/-- Go json.Unmarshal of a syntactically valid JSON document into
`*Config` (the call on main.go line 198).  Returns the updated
configuration and `true` when a non-nil error is returned.  Only the
fields tagged `region`, `instance_id`, `instance_az` can be written;
fields tagged `-` are never decoded.  A top-level null has no effect and
no error; any other top-level non-object is a type error with no
mutation; inside an object, a mismatched field is skipped and decoding
continues (documented skip-and-continue semantics of encoding/json). -/
def unmarshalConfig (v : JVal) (c : Config) : Config × Bool :=
  match v with
  | .obj fields => fields.foldl decodeField (c, false)
  | .null => (c, false)
  | _ => (c, true)

/-- Go json.Marshal of `Config` (main.go line 159): fields in declaration
order, skipping the ones tagged `-`. -/
def marshalConfig (c : Config) : JVal :=
  .obj [("region", .str c.Region),
        ("instance_id", .str c.InstanceID),
        ("instance_az", .str c.InstanceAZ)]

/-- What the cache file for the key triple holds, when it exists:
it may be unreadable (os.ReadFile fails although os.Stat succeeded),
syntactically invalid JSON (Unmarshal rejects it during its initial
scan, mutating nothing), or a JSON document. -/
inductive CacheData where
  | unreadable
  | unparsable
  | json (v : JVal)
deriving Repr

/-- The cache time-to-live of main.go line 187, in seconds. -/
def cacheTTL : Int := 24 * 3600

/-- Embedding of `loadCache` (main.go lines 171-203).  `file` is the
state of the cache file for this key triple (`none` when missing,
otherwise mtime and contents), `now` the current time.  Returns the
updated in-memory configuration and `true` when loadCache returns nil
(success).  The checks run in source order: existence, then TTL by
mtime, then readability, then unmarshalling. -/
def loadCache (file : Option (Int × CacheData)) (now : Int) (c : Config) :
    Config × Bool :=
  match file with
  | none => (c, false)
  | some (mtime, d) =>
    if now - mtime > cacheTTL then (c, false)
    else
      match d with
      | .unreadable => (c, false)
      | .unparsable => (c, false)
      | .json v =>
        match unmarshalConfig v c with
        | (c2, err) => (c2, !err)

/-- Embedding of `saveCache` (main.go lines 150-169) on its success
path: the cache file the write leaves behind, stamped with the write
time.  Marshalling a `Config` cannot fail; a failing os.WriteFile
leaves no (new) file and is out of scope of the round-trip claims. -/
def saveCache (c : Config) (mtime : Int) : Option (Int × CacheData) :=
  some (mtime, .json (marshalConfig c))

/-- One EC2 instance as the DescribeInstances reply exposes it to
`getInstanceDetails`: its instance id and its availability zone. -/
structure Ec2Instance where
  instanceId : String
  az : String
deriving DecidableEq, Repr

/-- Outcome of `getInstanceDetails`: the error on main.go line 247, a
runtime panic of the slice expression on line 243, or the updated
configuration. -/
inductive ResolveOut where
  | notFound
  | panicked
  | ok (c : Config)
deriving DecidableEq, Repr

/-- Go slice expression s[:len(s)-1] on a byte string: defined only for
a non-empty string (on the empty string the index len(s)-1 = -1 is out
of range and Go panics). -/
def goDropLastByte (s : String) : Option String :=
  if s.length = 0 then none else some (s.dropRight 1)

/-- Embedding of `getInstanceDetails` (main.go lines 221-248) after the
DescribeInstances call succeeded: `reservations` is the reply.  The
nested loops on lines 239-246 return on the first instance of the first
non-empty reservation; it sets InstanceID and InstanceAZ from the
instance and derives Region locally as the availability zone minus its
last byte (line 243), with no further service call.  No instance at all
is the error of line 247. -/
def getInstanceDetails (reservations : List (List Ec2Instance)) (c : Config) :
    ResolveOut :=
  match reservations.flatten with
  | [] => .notFound
  | inst :: _ =>
    match goDropLastByte inst.az with
    | none => .panicked
    | some region =>
      .ok { c with InstanceID := inst.instanceId,
                   InstanceAZ := inst.az,
                   Region := region }

/-- The lock-token state for one (profile, instanceName, remoteUser)
triple: `none` when no token file exists, `some m` when the token file
exists with mtime `m`.  The file system holds at most one file per
path, so the type already enforces at most one token per triple. -/
abbrev LockSt : Type := Option Int

/-- The lock staleness bound of main.go lines 115 and 128, in seconds. -/
def lockTimeout : Int := 50

/-- Embedding of main.go lines 114-117: stat the lock file and remove it
when it is strictly older than 50 seconds. -/
def staleCheck (now : Int) (s : LockSt) : LockSt :=
  match s with
  | some m => if now - m > lockTimeout then none else some m
  | none => none

/-- Embedding of the atomic exclusive create on main.go line 119
(os.OpenFile with O_EXCL|O_CREATE): fails leaving the state unchanged
when the token exists, otherwise creates it with mtime `now` and
acquires. -/
def exclCreate (now : Int) (s : LockSt) : LockSt × Bool :=
  match s with
  | some m => (some m, false)
  | none => (some now, true)

/-- One acquisition attempt as `main` performs it (lines 113-119):
the stale check followed by the exclusive create.  Returns the new
state and whether the lock was acquired. -/
def tryAcquire (now : Int) (s : LockSt) : LockSt × Bool :=
  exclCreate now (staleCheck now s)

/-- Removing the lock token (os.Remove on lines 116, 123, 130): a
no-op when the file is already gone, since the error return of
os.Remove is ignored. -/
def removeLock (s : LockSt) : LockSt :=
  match s with
  | some _ => none
  | none => none

/-- One atomic file-system step of an acquisition attempt, stamped with
the time at which it executes: the stale check of lines 114-117, or the
exclusive create of line 119. -/
inductive Step where
  | check (t : Int)
  | create (t : Int)
deriving DecidableEq, Repr

/-- Run one tagged step (process id, step) against the shared lock
state; a create step that acquires reports its process id. -/
def runStep (s : LockSt) (ps : Bool × Step) : LockSt × Option Bool :=
  match ps.2 with
  | .check t => (staleCheck t s, none)
  | .create t =>
    match exclCreate t s with
    | (s2, true) => (s2, some ps.1)
    | (s2, false) => (s2, none)

/-- Run a sequence of tagged steps from a lock state, collecting the
ids of the processes whose create step acquired the lock. -/
def runSteps (s : LockSt) : List (Bool × Step) → List Bool
  | [] => []
  | ps :: rest =>
    match runStep s ps with
    | (s2, some p) => p :: runSteps s2 rest
    | (s2, none) => runSteps s2 rest

/-- An order-preserving merge of two sequences of steps: the possible
schedules of two concurrent processes whose own steps stay in program
order. -/
inductive Interleave : List (Bool × Step) → List (Bool × Step) →
    List (Bool × Step) → Prop where
  | nil : Interleave [] [] []
  | left {x xs ys zs} : Interleave xs ys zs →
      Interleave (x :: xs) ys (x :: zs)
  | right {y xs ys zs} : Interleave xs ys zs →
      Interleave xs (y :: ys) (y :: zs)

/-- The acquisition attempt of process `p` as its two atomic steps, the
stale check at time `t1` and the exclusive create at time `t2`. -/
def attemptSteps (p : Bool) (t1 t2 : Int) : List (Bool × Step) :=
  [(p, .check t1), (p, .create t2)]

/-- The observable events of one run of `main`, in foreground order. -/
inductive Ev where
  | resolveCall
  | cacheSave
  | staleLockRemoved
  | lockAcquired
  | lockAlreadyHeld
  | keyPush (ok : Bool)
  | brokerCall
  | brokerFailed
  | pluginLaunch (path : String)
  | helperExit (ok : Bool)
  | explicitRelease
deriving DecidableEq, Repr

/-- How one run of `main` ends: os.Exit with a code, a runtime panic,
or a normal return from `main` (process exit status 0). -/
inductive Outcome where
  | exited (code : Nat)
  | panicked
  | returned
deriving DecidableEq, Repr

/-- The file-system environment the plugin search runs in: the set of
absolute paths of existing files, the working directory of the process,
and the directories of the executable search path. -/
structure FsEnv where
  files : List String
  cwd : String
  pathDirs : List String
deriving Repr

/-- A path is absolute when its first character is the path
separator. -/
def isAbsPath (p : String) : Bool :=
  match p.data with
  | c :: _ => c == '/'
  | [] => false

/-- Embedding of os.Stat as used on main.go line 337: an absolute path
is looked up as such; a relative path is resolved against the working
directory of the process.  os.Stat never consults the executable
search path. -/
def statExists (fs : FsEnv) (p : String) : Bool :=
  if isAbsPath p then fs.files.contains p
  else fs.files.contains (fs.cwd ++ "/" ++ p)

/-- The candidate list of main.go lines 330-335, in source order. -/
def commonPaths : List String :=
  ["session-manager-plugin",
   "/usr/local/bin/session-manager-plugin",
   "/usr/bin/session-manager-plugin",
   "/opt/homebrew/bin/session-manager-plugin"]

/-- Embedding of the plugin search on main.go lines 336-341: the first
candidate that os.Stat finds wins; `none` when no candidate exists, in
which case line 343 returns the not-found error. -/
def findPluginPath (fs : FsEnv) : Option String :=
  commonPaths.find? (statExists fs)

/-- Modelled from the spec: resolution of an unqualified executable
name via the ambient executable search path (what the in-code comment
on main.go line 331 and the specification describe for the first
candidate): the first search-path directory holding the name wins.
This is the behavior of exec.LookPath, which main.go does apply at
launch time (line 348) but not in the existence check (line 337). -/
def lookPath (fs : FsEnv) (name : String) : Option String :=
  (fs.pathDirs.find? (fun d => fs.files.contains (d ++ "/" ++ name))).map
    (fun d => d ++ "/" ++ name)

/-- Embedding of `startSSMSessionWithPlugin` (main.go lines 285-369):
`broker` is the outcome of the ssm StartSession call (line 303),
`runOk` whether the launched plugin process exits cleanly (line 363).
Returns the events of the bootstrap and its error return.  A broker
failure returns at line 305 before any plugin search or launch; a
missing plugin returns at line 343 before any launch; a plugin run
error is logged only (line 364) and the function still returns nil. -/
def startSSMSessionWithPlugin (broker : Except Unit Unit) (fs : FsEnv)
    (runOk : Bool) : List Ev × Except String Unit :=
  match broker with
  | .error _ => ([.brokerCall, .brokerFailed],
                 .error "failed to start SSM session")
  | .ok _ =>
    match findPluginPath fs with
    | none => ([.brokerCall],
               .error "session-manager-plugin binary not found")
    | some p => ([.brokerCall, .pluginLaunch p, .helperExit runOk], .ok ())

/-- Result of the lock-and-session part of `main`: the foreground event
trace, the time at which the background goroutine of lines 127-131 will
remove the token (`none` when the lock was not acquired and no goroutine
was started), and the lock state as the foreground flow leaves it when
`main` returns (after the deferred removal of lines 121-124). -/
structure TailResult where
  trace : List Ev
  timedReleaseAt : Option Int
  lockAfter : LockSt
deriving DecidableEq, Repr

/-- Embedding of `main` from line 113 to line 148: the stale-token
check, the exclusive-create acquisition attempt, on success the key
push (lines 133-138) with the deferred removal registered for the
return of `main` (lines 121-124, Go defer is function-scoped) and the
background removal scheduled 50 seconds after acquisition (lines
127-131), then unconditionally the session bootstrap (lines 141-147),
whose error is logged but does not change the return of `main`.  The
trace lists foreground events in program order; the deferred removal
appears last because Go runs it when `main` returns. -/
def mainTail (now : Int) (lockMtime : LockSt) (pushOk : Bool)
    (broker : Except Unit Unit) (fs : FsEnv) (runOk : Bool) : TailResult :=
  let s1 := staleCheck now lockMtime
  let removedEvs : List Ev :=
    if s1 = lockMtime then [] else [.staleLockRemoved]
  match exclCreate now s1 with
  | (s2, true) =>
    let bootstrap := startSSMSessionWithPlugin broker fs runOk
    { trace := removedEvs ++ [.lockAcquired, .keyPush pushOk] ++
        bootstrap.1 ++ [.explicitRelease],
      timedReleaseAt := some (now + lockTimeout),
      lockAfter := removeLock s2 }
  | (s2, false) =>
    let bootstrap := startSSMSessionWithPlugin broker fs runOk
    { trace := removedEvs ++ [.lockAlreadyHeld] ++ bootstrap.1,
      timedReleaseAt := none,
      lockAfter := s2 }

/-- Embedding of the cache-and-resolve stage of `main` (lines 85-100):
loadCache is called with its error ignored; when the configuration
still has an empty InstanceID the resolver is called (exit 1 on a
service error or on no match, panic on an empty availability zone) and
the result is saved to the cache.  Returns the events, and either the
outcome that ends the run or the configuration the run continues
with together with the new state of the cache file. -/
def mainCacheStage (file : Option (Int × CacheData)) (now : Int)
    (resolver : Except Unit (List (List Ec2Instance))) (c0 : Config) :
    List Ev × (Outcome ⊕ (Config × Option (Int × CacheData))) :=
  let c1 := (loadCache file now c0).1
  if c1.InstanceID == "" then
    match resolver with
    | .error _ => ([.resolveCall], .inl (.exited 1))
    | .ok reservations =>
      match getInstanceDetails reservations c1 with
      | .notFound => ([.resolveCall], .inl (.exited 1))
      | .panicked => ([.resolveCall], .inl .panicked)
      | .ok c2 => ([.resolveCall, .cacheSave], .inr (c2, saveCache c2 now))
  else
    ([], .inr (c1, file))

/-- The whole world one run of `main` observes: the current time, the
cache file for the key triple, the DescribeInstances reply, the lock
token state, the outcome of the key push, the outcome of the broker
call, the file system for the plugin search, and the exit status of
the plugin process. -/
structure World where
  now : Int
  cacheFile : Option (Int × CacheData)
  resolver : Except Unit (List (List Ec2Instance))
  lockMtime : LockSt
  pushOk : Bool
  broker : Except Unit Unit
  fs : FsEnv
  runOk : Bool

/-- Result of a whole run of `main` from line 85 on: its event trace,
how the process ends, the final in-memory configuration, and the
scheduled background release time, if any. -/
structure MainResult where
  trace : List Ev
  outcome : Outcome
  cfg : Config
  timedReleaseAt : Option Int

/-- Embedding of `main` from line 85 to line 148: the cache-and-resolve
stage followed, when the run survives it, by the lock stage, the
optional key push, and the session bootstrap. -/
def mainFlow (w : World) (c0 : Config) : MainResult :=
  match mainCacheStage w.cacheFile w.now w.resolver c0 with
  | (evs, .inl out) =>
    { trace := evs, outcome := out, cfg := c0, timedReleaseAt := none }
  | (evs, .inr (c, _)) =>
    let t := mainTail w.now w.lockMtime w.pushOk w.broker w.fs w.runOk
    { trace := evs ++ t.trace, outcome := .returned, cfg := c,
      timedReleaseAt := t.timedReleaseAt }

/-- Concrete fixture: the configuration as `main` builds it from the
three positional arguments, before any cache load or resolution. -/
def cInit : Config :=
  { AppHome := "/home/u/.ssm-ssh-connect", AwsProfile := "prof",
    Region := "", InstanceName := "web-1", InstanceID := "",
    InstanceAZ := "", InstanceUser := "ubuntu" }

/-- Concrete fixture: a fully resolved configuration. -/
def cResolved : Config :=
  { cInit with InstanceID := "i-0abc", InstanceAZ := "us-east-1a",
               Region := "us-east-1" }

/-- Concrete fixture: a file system where the plugin is installed at
its default linux location, which is also on the search path. -/
def fsOk : FsEnv :=
  { files := ["/usr/bin/session-manager-plugin"], cwd := "/home/u",
    pathDirs := ["/usr/bin"] }

/-- Helper: the stale check leaves an absent token absent. -/
theorem staleCheck_none (t : Int) : staleCheck t none = none := rfl

/-- Helper: the stale check keeps a token that is at most 50 seconds
old. -/
theorem staleCheck_fresh {t m : Int} (h : t - m ≤ lockTimeout) :
    staleCheck t (some m) = some m := by
  unfold staleCheck
  dsimp only
  rw [if_neg (by omega)]

/-- Helper: the stale check removes a token strictly older than 50
seconds. -/
theorem staleCheck_stale {t m : Int} (h : lockTimeout < t - m) :
    staleCheck t (some m) = none := by
  unfold staleCheck
  dsimp only
  rw [if_pos (by omega)]

/-- Helper: a check step only runs the stale check. -/
theorem runSteps_check (s : LockSt) (p : Bool) (t : Int)
    (rest : List (Bool × Step)) :
    runSteps s ((p, .check t) :: rest) = runSteps (staleCheck t s) rest := rfl

/-- Helper: a create step on an absent token acquires. -/
theorem runSteps_create_none (p : Bool) (t : Int)
    (rest : List (Bool × Step)) :
    runSteps none ((p, .create t) :: rest) =
      p :: runSteps (some t) rest := rfl

/-- Helper: a create step on a present token fails and changes
nothing. -/
theorem runSteps_create_some (m : Int) (p : Bool) (t : Int)
    (rest : List (Bool × Step)) :
    runSteps (some m) ((p, .create t) :: rest) =
      runSteps (some m) rest := rfl

/-- Helper: an interleaving whose left component is exhausted is the
right component. -/
theorem interleave_nil_left {ys zs : List (Bool × Step)}
    (h : Interleave [] ys zs) : zs = ys := by
  induction ys generalizing zs with
  | nil => cases h; rfl
  | cons y ys ih =>
    cases h with
    | right h2 => rw [ih h2]

/-- Helper: an interleaving whose right component is exhausted is the
left component. -/
theorem interleave_nil_right {xs zs : List (Bool × Step)}
    (h : Interleave xs [] zs) : zs = xs := by
  induction xs generalizing zs with
  | nil => cases h; rfl
  | cons x xs ih =>
    cases h with
    | left h2 => rw [ih h2]

/-- Helper: decoding one JSON object field never writes the fields
tagged `-`. -/
theorem decodeField_keeps (acc : Config × Bool) (kv : String × JVal) :
    (decodeField acc kv).1.AppHome = acc.1.AppHome ∧
    (decodeField acc kv).1.AwsProfile = acc.1.AwsProfile ∧
    (decodeField acc kv).1.InstanceName = acc.1.InstanceName ∧
    (decodeField acc kv).1.InstanceUser = acc.1.InstanceUser := by
  obtain ⟨k, v⟩ := kv
  unfold decodeField
  dsimp only
  split_ifs <;> cases v <;> simp

/-- Helper: decoding a whole JSON object never writes the fields
tagged `-`. -/
theorem foldl_decodeField_keeps (fields : List (String × JVal))
    (acc : Config × Bool) :
    (fields.foldl decodeField acc).1.AppHome = acc.1.AppHome ∧
    (fields.foldl decodeField acc).1.AwsProfile = acc.1.AwsProfile ∧
    (fields.foldl decodeField acc).1.InstanceName = acc.1.InstanceName ∧
    (fields.foldl decodeField acc).1.InstanceUser = acc.1.InstanceUser := by
  induction fields generalizing acc with
  | nil => exact ⟨rfl, rfl, rfl, rfl⟩
  | cons kv rest ih =>
    obtain ⟨h1, h2, h3, h4⟩ := ih (decodeField acc kv)
    obtain ⟨g1, g2, g3, g4⟩ := decodeField_keeps acc kv
    exact ⟨h1.trans g1, h2.trans g2, h3.trans g3, h4.trans g4⟩

/-- C10: for every cache-file content, including arbitrary JSON,
`loadCache` never changes the key-triple fields AwsProfile,
InstanceName, InstanceUser, nor AppHome, of the in-memory
configuration: those fields carry the json tag `-` and are excluded
from deserialization, so only Region, InstanceID and InstanceAZ can be
affected. -/
theorem loadCache_frame (file : Option (Int × CacheData)) (now : Int)
    (c : Config) :
    (loadCache file now c).1.AppHome = c.AppHome ∧
    (loadCache file now c).1.AwsProfile = c.AwsProfile ∧
    (loadCache file now c).1.InstanceName = c.InstanceName ∧
    (loadCache file now c).1.InstanceUser = c.InstanceUser := by
  unfold loadCache
  match file with
  | none => exact ⟨rfl, rfl, rfl, rfl⟩
  | some (mtime, d) =>
    dsimp only
    split
    · exact ⟨rfl, rfl, rfl, rfl⟩
    · match d with
      | .unreadable => exact ⟨rfl, rfl, rfl, rfl⟩
      | .unparsable => exact ⟨rfl, rfl, rfl, rfl⟩
      | .json v =>
        dsimp only
        unfold unmarshalConfig
        match v with
        | .str s => exact ⟨rfl, rfl, rfl, rfl⟩
        | .num n => exact ⟨rfl, rfl, rfl, rfl⟩
        | .null => exact ⟨rfl, rfl, rfl, rfl⟩
        | .other => exact ⟨rfl, rfl, rfl, rfl⟩
        | .obj fields => exact foldl_decodeField_keeps fields (c, false)

/-- C5: saving an instance identity with `saveCache` and loading it
back with `loadCache` while the record is younger than 24 hours
returns the stored identity unchanged, and the load succeeds. -/
theorem cache_roundtrip (c c2 : Config) (tw tr : Int)
    (hage : tr - tw < cacheTTL) :
    (loadCache (saveCache c tw) tr c2).2 = true ∧
    (loadCache (saveCache c tw) tr c2).1.Region = c.Region ∧
    (loadCache (saveCache c tw) tr c2).1.InstanceID = c.InstanceID ∧
    (loadCache (saveCache c tw) tr c2).1.InstanceAZ = c.InstanceAZ := by
  have hn : ¬ (tr - tw > cacheTTL) := by omega
  simp [loadCache, saveCache, marshalConfig, unmarshalConfig,
        decodeField, hn]

/-- C5 witness at a concrete identity, write time 0 and read time one
hour. -/
theorem cache_roundtrip_witness :
    (loadCache (saveCache cResolved 0) 3600 cInit).2 = true ∧
    (loadCache (saveCache cResolved 0) 3600 cInit).1.Region =
      cResolved.Region ∧
    (loadCache (saveCache cResolved 0) 3600 cInit).1.InstanceID =
      cResolved.InstanceID ∧
    (loadCache (saveCache cResolved 0) 3600 cInit).1.InstanceAZ =
      cResolved.InstanceAZ :=
  cache_roundtrip cResolved cInit 0 3600 (by decide)

/-- C6: whenever resolution succeeds, the derived region is the
availability-zone string of the selected (first) instance with its
last character removed, computed locally inside `getInstanceDetails`
with no further service call, for every availability zone of length at
least 1. -/
theorem region_derivation (reservations : List (List Ec2Instance))
    (c : Config) (inst : Ec2Instance) (rest : List Ec2Instance)
    (hfirst : reservations.flatten = inst :: rest)
    (hlen : 1 ≤ inst.az.length) :
    getInstanceDetails reservations c =
      .ok { c with InstanceID := inst.instanceId,
                   InstanceAZ := inst.az,
                   Region := inst.az.dropRight 1 } := by
  unfold getInstanceDetails
  rw [hfirst]
  dsimp only
  have hg : goDropLastByte inst.az = some (inst.az.dropRight 1) := by
    unfold goDropLastByte
    rw [if_neg (by omega)]
  rw [hg]

/-- C6 witness: one running instance in availability zone us-east-1a
yields region us-east-1. -/
theorem region_derivation_witness :
    getInstanceDetails [[⟨"i-0abc", "us-east-1a"⟩]] cInit =
      .ok { cInit with InstanceID := "i-0abc",
                       InstanceAZ := "us-east-1a",
                       Region := "us-east-1" } := by
  have h := region_derivation [[⟨"i-0abc", "us-east-1a"⟩]] cInit
    ⟨"i-0abc", "us-east-1a"⟩ [] rfl (by decide)
  simpa using h

/-- C2: when two acquisition attempts for the same triple race (their
steps happen within one second of each other, each attempt running its
stale check before its exclusive create), exactly one of the two
processes acquires the lock through the atomic exclusive create and
the other observes AlreadyHeld, for every schedule of the atomic
steps.  The state type `LockSt` holds at most one token per triple, so
at most one token file exists at any instant along the run. -/
theorem lock_race_exclusive (t1 t2 t3 t4 : Int)
    (zs : List (Bool × Step))
    (hil : Interleave (attemptSteps false t1 t2) (attemptSteps true t3 t4) zs)
    (ho1 : t1 ≤ t2) (ho2 : t3 ≤ t4)
    (hr1 : t1 - t3 ≤ 1) (hr2 : t3 - t1 ≤ 1) :
    runSteps none zs = [false] ∨ runSteps none zs = [true] := by
  have hlt : lockTimeout = 50 := rfl
  unfold attemptSteps at hil
  cases hil with
  | left h1 =>
    cases h1 with
    | left h2 =>
      rw [interleave_nil_left h2]
      rw [runSteps_check, staleCheck_none, runSteps_create_none,
          runSteps_check, staleCheck_fresh (by omega),
          runSteps_create_some]
      exact Or.inl rfl
    | right h2 =>
      cases h2 with
      | left h3 =>
        rw [interleave_nil_left h3]
        rw [runSteps_check, staleCheck_none, runSteps_check,
            staleCheck_none, runSteps_create_none, runSteps_create_some]
        exact Or.inl rfl
      | right h3 =>
        cases h3 with
        | left h4 =>
          rw [interleave_nil_left h4]
          rw [runSteps_check, staleCheck_none, runSteps_check,
              staleCheck_none, runSteps_create_none,
              runSteps_create_some]
          exact Or.inr rfl
  | right h1 =>
    cases h1 with
    | left h2 =>
      cases h2 with
      | left h3 =>
        rw [interleave_nil_left h3]
        rw [runSteps_check, staleCheck_none, runSteps_check,
            staleCheck_none, runSteps_create_none, runSteps_create_some]
        exact Or.inl rfl
      | right h3 =>
        cases h3 with
        | left h4 =>
          rw [interleave_nil_left h4]
          rw [runSteps_check, staleCheck_none, runSteps_check,
              staleCheck_none, runSteps_create_none,
              runSteps_create_some]
          exact Or.inr rfl
    | right h2 =>
      cases h2 with
      | left h3 =>
        rw [interleave_nil_right h3]
        rw [runSteps_check, staleCheck_none, runSteps_create_none,
            runSteps_check, staleCheck_fresh (by omega),
            runSteps_create_some]
        exact Or.inr rfl

/-- C2 witness: the schedule where the first process runs both of its
steps before the second process has exactly one acquirer. -/
theorem lock_race_exclusive_witness :
    runSteps none [(false, .check 0), (false, .create 0),
                   (true, .check 1), (true, .create 1)] = [false] ∨
    runSteps none [(false, .check 0), (false, .create 0),
                   (true, .check 1), (true, .create 1)] = [true] :=
  lock_race_exclusive 0 0 1 1 _
    (.left (.left (.right (.right .nil))))
    (by decide) (by decide) (by decide) (by decide)

/-- Helper: the cache-and-resolve stage emits no events, only the
resolver call, or the resolver call followed by the cache save. -/
theorem mainCacheStage_events (file : Option (Int × CacheData)) (now : Int)
    (resolver : Except Unit (List (List Ec2Instance))) (c0 : Config) :
    (mainCacheStage file now resolver c0).1 = [] ∨
    (mainCacheStage file now resolver c0).1 = [.resolveCall] ∨
    (mainCacheStage file now resolver c0).1 = [.resolveCall, .cacheSave] := by
  unfold mainCacheStage
  dsimp only
  split
  · split
    · simp
    · split <;> simp
  · simp

/-- Helper: when the cache-and-resolve stage ends the run, the outcome
is exit code 1 or a panic, never a normal return. -/
theorem mainCacheStage_inl (file : Option (Int × CacheData)) (now : Int)
    (resolver : Except Unit (List (List Ec2Instance))) (c0 : Config)
    (evs : List Ev) (out : Outcome)
    (h : mainCacheStage file now resolver c0 = (evs, .inl out)) :
    out = .exited 1 ∨ out = .panicked := by
  unfold mainCacheStage at h
  dsimp only at h
  split at h
  · split at h
    · cases h
      simp
    · split at h
      · cases h
        simp
      · cases h
        simp
      · cases h
  · cases h

/-- Helper: a failing broker call yields exactly the call and the
failure, and an error return. -/
theorem bootstrap_error_trace (fs : FsEnv) (runOk : Bool) :
    startSSMSessionWithPlugin (.error ()) fs runOk =
      ([.brokerCall, .brokerFailed],
       .error "failed to start SSM session") := rfl

/-- Helper: the bootstrap trace always starts with the broker call. -/
theorem bootstrap_head (broker : Except Unit Unit) (fs : FsEnv)
    (runOk : Bool) :
    ∃ tl, (startSSMSessionWithPlugin broker fs runOk).1 =
      .brokerCall :: tl := by
  unfold startSSMSessionWithPlugin
  cases broker with
  | error e => exact ⟨[.brokerFailed], rfl⟩
  | ok u =>
    dsimp only
    cases hfp : findPluginPath fs with
    | none => simp
    | some p => simp

/-- Helper: the bootstrap never emits a key-push event. -/
theorem bootstrap_no_push (broker : Except Unit Unit) (fs : FsEnv)
    (runOk : Bool) (b : Bool) :
    Ev.keyPush b ∉ (startSSMSessionWithPlugin broker fs runOk).1 := by
  unfold startSSMSessionWithPlugin
  cases broker with
  | error e => simp
  | ok u =>
    dsimp only
    cases hfp : findPluginPath fs with
    | none => simp
    | some p => simp

/-- Helper: with a token strictly older than 50 seconds, the lock
stage removes it, acquires, pushes the key, schedules the background
release for 50 seconds after acquisition, and runs the deferred
release when `main` returns. -/
theorem mainTail_stale (now m : Int) (pushOk runOk : Bool)
    (broker : Except Unit Unit) (fs : FsEnv)
    (h : lockTimeout < now - m) :
    mainTail now (some m) pushOk broker fs runOk =
      { trace := [.staleLockRemoved, .lockAcquired, .keyPush pushOk] ++
          (startSSMSessionWithPlugin broker fs runOk).1 ++
          [.explicitRelease],
        timedReleaseAt := some (now + lockTimeout),
        lockAfter := none } := by
  unfold mainTail
  rw [staleCheck_stale h]
  simp [exclCreate, removeLock]

/-- Helper: with a token at most 50 seconds old, the lock stage does
not remove it, observes AlreadyHeld, skips the key push, and proceeds
to the bootstrap with no release scheduled. -/
theorem mainTail_fresh (now m : Int) (pushOk runOk : Bool)
    (broker : Except Unit Unit) (fs : FsEnv)
    (h : now - m ≤ lockTimeout) :
    mainTail now (some m) pushOk broker fs runOk =
      { trace := [.lockAlreadyHeld] ++
          (startSSMSessionWithPlugin broker fs runOk).1,
        timedReleaseAt := none,
        lockAfter := some m } := by
  unfold mainTail
  rw [staleCheck_fresh h]
  simp [exclCreate]

/-- Helper: with no token present, the lock stage acquires at once. -/
theorem mainTail_nolock (now : Int) (pushOk runOk : Bool)
    (broker : Except Unit Unit) (fs : FsEnv) :
    mainTail now none pushOk broker fs runOk =
      { trace := [.lockAcquired, .keyPush pushOk] ++
          (startSSMSessionWithPlugin broker fs runOk).1 ++
          [.explicitRelease],
        timedReleaseAt := some (now + lockTimeout),
        lockAfter := none } := by
  unfold mainTail
  simp [staleCheck, exclCreate, removeLock]

/-- Helper: the lock-stage trace is the bootstrap trace surrounded by
lock events before it and at most the deferred release after it. -/
theorem mainTail_trace_decomp (now : Int) (lk : LockSt)
    (pushOk runOk : Bool) (broker : Except Unit Unit) (fs : FsEnv) :
    ∃ pre post, (mainTail now lk pushOk broker fs runOk).trace =
      pre ++ (startSSMSessionWithPlugin broker fs runOk).1 ++ post ∧
      (∀ e ∈ pre, e = .staleLockRemoved ∨ e = .lockAcquired ∨
        e = .lockAlreadyHeld ∨ e = .keyPush pushOk) ∧
      (∀ e ∈ post, e = .explicitRelease) := by
  cases lk with
  | none =>
    refine ⟨[.lockAcquired, .keyPush pushOk], [.explicitRelease], ?_, ?_, ?_⟩
    · rw [mainTail_nolock]
    · intro e he
      simp at he
      rcases he with h | h <;> simp [h]
    · intro e he
      simp at he
      simp [he]
  | some m =>
    by_cases h : now - m ≤ lockTimeout
    · refine ⟨[.lockAlreadyHeld], [], ?_, ?_, ?_⟩
      · rw [mainTail_fresh now m pushOk runOk broker fs h]
        simp
      · intro e he
        simp at he
        simp [he]
      · intro e he
        simp at he
    · refine ⟨[.staleLockRemoved, .lockAcquired, .keyPush pushOk],
        [.explicitRelease], ?_, ?_, ?_⟩
      · rw [mainTail_stale now m pushOk runOk broker fs (by omega)]
      · intro e he
        simp at he
        rcases he with h | h | h <;> simp [h]
      · intro e he
        simp at he
        simp [he]

/-- C1: in a run that reaches the lock stage with a token file present
for its (profile, instanceName, remoteUser) triple, a token strictly
older than 50 seconds is removed and the lock acquired, after which the
key push is performed; a token 50 seconds old or younger leaves the
attempt with AlreadyHeld, the key push is skipped entirely, and the
run proceeds directly from AlreadyHeld to the session bootstrap. -/
theorem lock_age_semantics (w : World) (c0 : Config) (m : Int)
    (hlock : w.lockMtime = some m)
    (hreach : (mainFlow w c0).outcome = .returned) :
    (lockTimeout < w.now - m →
      ∃ pre post, (mainFlow w c0).trace =
        pre ++ [.staleLockRemoved, .lockAcquired, .keyPush w.pushOk] ++
          post) ∧
    (w.now - m ≤ lockTimeout →
      (∀ b, Ev.keyPush b ∉ (mainFlow w c0).trace) ∧
      ∃ pre post, (mainFlow w c0).trace =
        pre ++ [.lockAlreadyHeld, .brokerCall] ++ post) := by
  unfold mainFlow at hreach ⊢
  rcases hcs : mainCacheStage w.cacheFile w.now w.resolver c0 with ⟨evs, r⟩
  cases r with
  | inl out =>
    rw [hcs] at hreach
    dsimp only at hreach
    rcases mainCacheStage_inl _ _ _ _ _ _ hcs with h | h <;>
      rw [h] at hreach <;> cases hreach
  | inr cf =>
    dsimp only
    constructor
    · intro hstale
      rw [hlock, mainTail_stale w.now m w.pushOk w.runOk w.broker w.fs
        (by omega)]
      exact ⟨evs, (startSSMSessionWithPlugin w.broker w.fs w.runOk).1 ++
        [.explicitRelease], by simp⟩
    · intro hfresh
      rw [hlock, mainTail_fresh w.now m w.pushOk w.runOk w.broker w.fs
        (by omega)]
      constructor
      · intro b hmem
        dsimp only at hmem
        rw [List.mem_append] at hmem
        rcases hmem with hmem | hmem
        · rcases mainCacheStage_events w.cacheFile w.now w.resolver c0
            with h | h | h <;> rw [hcs] at h <;> dsimp only at h <;>
            rw [h] at hmem <;> simp at hmem
        · rw [List.mem_append] at hmem
          rcases hmem with hmem | hmem
          · simp at hmem
          · exact bootstrap_no_push w.broker w.fs w.runOk b hmem
      · rcases bootstrap_head w.broker w.fs w.runOk with ⟨tl, htl⟩
        refine ⟨evs, tl, ?_⟩
        rw [htl]
        simp

/-- C1 witness world for the stale-token branch: a valid cache, a
token 100 seconds old at time 100, and a healthy push and session. -/
def wStale : World :=
  { now := 100, cacheFile := saveCache cResolved 0, resolver := .error (),
    lockMtime := some 0, pushOk := true, broker := .ok (), fs := fsOk,
    runOk := true }

/-- C1 witness: at time 100 with a token of mtime 0 the run removes the
token, acquires, and pushes the key. -/
theorem lock_age_semantics_witness :
    ∃ pre post, (mainFlow wStale cInit).trace =
      pre ++ [.staleLockRemoved, .lockAcquired, .keyPush true] ++ post :=
  (lock_age_semantics wStale cInit 0 rfl (by decide)).1 (by decide)

/-- C7: the key push is non-fatal: in every run that reaches the lock
stage the session bootstrap is attempted (the broker call appears in
the trace), whatever the outcome of the key push; and when the lock is
acquired with no token present, the bootstrap call immediately follows
the key-push event, for a failed push exactly as for a successful
one. -/
theorem key_push_nonfatal (w : World) (c0 : Config)
    (hreach : (mainFlow w c0).outcome = .returned) :
    Ev.brokerCall ∈ (mainFlow w c0).trace ∧
    (w.lockMtime = none →
      ∃ pre post, (mainFlow w c0).trace =
        pre ++ [.keyPush w.pushOk, .brokerCall] ++ post) := by
  unfold mainFlow at hreach ⊢
  rcases hcs : mainCacheStage w.cacheFile w.now w.resolver c0 with ⟨evs, r⟩
  cases r with
  | inl out =>
    rw [hcs] at hreach
    dsimp only at hreach
    rcases mainCacheStage_inl _ _ _ _ _ _ hcs with h | h <;>
      rw [h] at hreach <;> cases hreach
  | inr cf =>
    dsimp only
    constructor
    · rcases mainTail_trace_decomp w.now w.lockMtime w.pushOk w.runOk
        w.broker w.fs with ⟨pre, post, hdec, _, _⟩
      rw [hdec]
      rcases bootstrap_head w.broker w.fs w.runOk with ⟨tl, htl⟩
      rw [htl]
      simp
    · intro hnone
      rw [hnone, mainTail_nolock w.now w.pushOk w.runOk w.broker w.fs]
      rcases bootstrap_head w.broker w.fs w.runOk with ⟨tl, htl⟩
      refine ⟨evs ++ [.lockAcquired], tl ++ [.explicitRelease], ?_⟩
      rw [htl]
      simp

/-- C7 witness world: no token, a failing key push, a healthy broker. -/
def wPushFail : World :=
  { now := 100, cacheFile := saveCache cResolved 0, resolver := .error (),
    lockMtime := none, pushOk := false, broker := .ok (), fs := fsOk,
    runOk := true }

/-- C7 witness: with a failing key push the broker call still happens,
immediately after the failed push. -/
theorem key_push_nonfatal_witness :
    ∃ pre post, (mainFlow wPushFail cInit).trace =
      pre ++ [.keyPush false, .brokerCall] ++ post :=
  (key_push_nonfatal wPushFail cInit (by decide)).2 rfl

/-- Helper: every event the bootstrap emits is the broker call, the
broker failure, a plugin launch, or a helper exit. -/
theorem bootstrap_events (broker : Except Unit Unit) (fs : FsEnv)
    (runOk : Bool) :
    ∀ e ∈ (startSSMSessionWithPlugin broker fs runOk).1,
      e = .brokerCall ∨ e = .brokerFailed ∨
      (∃ p, e = .pluginLaunch p) ∨ ∃ ok, e = .helperExit ok := by
  unfold startSSMSessionWithPlugin
  cases broker with
  | error e2 =>
    intro e he
    simp at he
    rcases he with h | h <;> simp [h]
  | ok u =>
    dsimp only
    cases hfp : findPluginPath fs with
    | none =>
      intro e he
      simp at he
      simp [he]
    | some p =>
      intro e he
      simp at he
      rcases he with h | h | h <;> simp [h]

/-- Helper: with a failing broker, every event of a whole run is among
the cache, lock, push, broker and release events: in particular no
plugin launch and no helper exit ever appears. -/
theorem mainFlow_events_broker_error (w : World) (c0 : Config)
    (hb : w.broker = .error ()) (e : Ev)
    (he : e ∈ (mainFlow w c0).trace) :
    e = .resolveCall ∨ e = .cacheSave ∨ e = .staleLockRemoved ∨
    e = .lockAcquired ∨ e = .lockAlreadyHeld ∨ e = .keyPush w.pushOk ∨
    e = .brokerCall ∨ e = .brokerFailed ∨ e = .explicitRelease := by
  unfold mainFlow at he
  rcases hcs : mainCacheStage w.cacheFile w.now w.resolver c0 with ⟨evs, r⟩
  rw [hcs] at he
  have hevs : evs = [] ∨ evs = [Ev.resolveCall] ∨
      evs = [Ev.resolveCall, Ev.cacheSave] := by
    have h := mainCacheStage_events w.cacheFile w.now w.resolver c0
    rw [hcs] at h
    exact h
  cases r with
  | inl out =>
    dsimp only at he
    rcases hevs with h | h | h <;> rw [h] at he <;> simp at he <;> tauto
  | inr cf =>
    dsimp only at he
    rw [List.mem_append] at he
    rcases he with he | he
    · rcases hevs with h | h | h <;> rw [h] at he <;> simp at he <;> tauto
    · rcases mainTail_trace_decomp w.now w.lockMtime w.pushOk w.runOk
        w.broker w.fs with ⟨pre, post, hdec, hpre, hpost⟩
      rw [hdec, hb, bootstrap_error_trace] at he
      dsimp only at he
      rw [List.mem_append, List.mem_append] at he
      rcases he with (he | he) | he
      · rcases hpre e he with h | h | h | h <;> simp [h]
      · simp at he
        rcases he with h | h <;> simp [h]
      · simp [hpost e he]

/-- C8: a failure of the external session-broker call is fatal to the
whole invocation: the bootstrap returns an error, the
session-transport helper is never launched (no plugin-launch and no
helper-exit event occurs anywhere in the run), and no session takes
place. -/
theorem broker_failure_fatal (w : World) (c0 : Config)
    (hb : w.broker = .error ()) :
    (startSSMSessionWithPlugin w.broker w.fs w.runOk).2 =
      .error "failed to start SSM session" ∧
    (∀ p, Ev.pluginLaunch p ∉ (mainFlow w c0).trace) ∧
    (∀ ok, Ev.helperExit ok ∉ (mainFlow w c0).trace) := by
  refine ⟨by rw [hb, bootstrap_error_trace], ?_, ?_⟩
  · intro p hmem
    rcases mainFlow_events_broker_error w c0 hb _ hmem with
      h | h | h | h | h | h | h | h | h <;> simp at h
  · intro ok hmem
    rcases mainFlow_events_broker_error w c0 hb _ hmem with
      h | h | h | h | h | h | h | h | h <;> simp at h

/-- C8 witness world: a valid cache, no token, and a failing broker. -/
def wBrokerFail : World :=
  { now := 100, cacheFile := saveCache cResolved 0, resolver := .error (),
    lockMtime := none, pushOk := true, broker := .error (), fs := fsOk,
    runOk := true }

/-- C8 witness: with the broker failing, the bootstrap reports its
error and the installed plugin is still never launched. -/
theorem broker_failure_fatal_witness :
    (startSSMSessionWithPlugin wBrokerFail.broker wBrokerFail.fs
      wBrokerFail.runOk).2 = .error "failed to start SSM session" ∧
    Ev.pluginLaunch "/usr/bin/session-manager-plugin" ∉
      (mainFlow wBrokerFail cInit).trace :=
  ⟨(broker_failure_fatal wBrokerFail cInit rfl).1,
   (broker_failure_fatal wBrokerFail cInit rfl).2.1 _⟩

/-- C3 counterexample: in a run that acquires the lock, pushes the key
successfully and completes a whole session, the explicit (deferred)
release is the last foreground event of the run — it fires when `main`
returns, after the broker call, the plugin launch and the helper exit
— and not when the key push completes: the Go defer of main.go lines
121-124 is function-scoped, so at the concrete input below the
release event does not directly follow the key-push event. -/
theorem explicit_release_not_at_push :
    (mainTail 1000 none true (.ok ()) fsOk true).trace =
      [.lockAcquired, .keyPush true, .brokerCall,
       .pluginLaunch "/usr/bin/session-manager-plugin",
       .helperExit true, .explicitRelease] ∧
    ((mainTail 1000 none true (.ok ()) fsOk true).trace.findIdx
      (fun e => e == .explicitRelease)) ≠
    ((mainTail 1000 none true (.ok ()) fsOk true).trace.findIdx
      (fun e => e == .keyPush true)) + 1 := by
  decide

/-- C3 amended: after every successful lock acquisition two release
paths exist: the deferred release, which fires when `main` returns
(the last foreground event of the run, after the session bootstrap,
whether the push succeeded or failed), and the background release
fired 50 seconds after acquisition regardless of the deferred one;
removing the token is idempotent and a no-op when the token file is
already gone. -/
theorem release_paths (now : Int) (lk : LockSt) (pushOk runOk : Bool)
    (broker : Except Unit Unit) (fs : FsEnv)
    (hacq : Ev.lockAcquired ∈
      (mainTail now lk pushOk broker fs runOk).trace) :
    (mainTail now lk pushOk broker fs runOk).trace.getLast? =
      some .explicitRelease ∧
    (mainTail now lk pushOk broker fs runOk).timedReleaseAt =
      some (now + lockTimeout) ∧
    (mainTail now lk pushOk broker fs runOk).lockAfter = none ∧
    (∀ s : LockSt, removeLock (removeLock s) = removeLock s) ∧
    removeLock none = none := by
  have hidem : ∀ s : LockSt, removeLock (removeLock s) = removeLock s := by
    intro s
    cases s <;> rfl
  cases lk with
  | none =>
    rw [mainTail_nolock now pushOk runOk broker fs]
    refine ⟨?_, rfl, rfl, hidem, rfl⟩
    dsimp only
    rw [List.getLast?_append_cons]
    rfl
  | some m =>
    by_cases h : now - m ≤ lockTimeout
    · rw [mainTail_fresh now m pushOk runOk broker fs h] at hacq
      dsimp only at hacq
      rw [List.mem_append] at hacq
      rcases hacq with hacq | hacq
      · simp at hacq
      · rcases bootstrap_events broker fs runOk _ hacq with
          hh | hh | ⟨p, hh⟩ | ⟨ok, hh⟩ <;> simp at hh
    · rw [mainTail_stale now m pushOk runOk broker fs (by omega)]
      refine ⟨?_, rfl, rfl, hidem, rfl⟩
      dsimp only
      rw [List.getLast?_append_cons]
      rfl

/-- C3 amended witness: in the concrete acquiring run the deferred
release is the final foreground event and the background release is
scheduled 50 seconds after acquisition. -/
theorem release_paths_witness :
    (mainTail 1000 none true (.ok ()) fsOk true).trace.getLast? =
      some Ev.explicitRelease ∧
    (mainTail 1000 none true (.ok ()) fsOk true).timedReleaseAt =
      some (1000 + lockTimeout) :=
  ⟨(release_paths 1000 none true true (.ok ()) fsOk (by decide)).1,
   (release_paths 1000 none true true (.ok ()) fsOk (by decide)).2.1⟩

/-- C4 amended: loadCache reports absent in exactly four cases — no
file for the key, unreadable file, malformed contents (syntactically
invalid JSON or a JSON document the decoder rejects), or age strictly
over 24 hours — and the caller ignores the error identically in all of
them; in the missing, unreadable, syntactically-invalid and expired
cases the in-memory configuration is untouched and the caller behaves
exactly as for a missing file.  (A valid-JSON document that fails
decoding by type mismatch also reports absent, but may leave decoded
fields behind; see the counterexample.) -/
theorem loadCache_absent_cases (file : Option (Int × CacheData))
    (now : Int) (c : Config) :
    ((loadCache file now c).2 = false ↔
      file = none ∨
      ∃ mtime d, file = some (mtime, d) ∧
        (now - mtime > cacheTTL ∨ d = .unreadable ∨ d = .unparsable ∨
         ∃ v, d = .json v ∧ (unmarshalConfig v c).2 = true)) ∧
    (∀ mtime d, file = some (mtime, d) →
      (d = .unreadable ∨ d = .unparsable ∨ now - mtime > cacheTTL) →
      loadCache file now c = loadCache none now c) := by
  constructor
  · cases file with
    | none => simp [loadCache]
    | some p =>
      rcases p with ⟨mtime, d⟩
      unfold loadCache
      dsimp only
      by_cases hexp : now - mtime > cacheTTL
      · rw [if_pos hexp]
        constructor
        · intro _
          exact Or.inr ⟨mtime, d, rfl, Or.inl hexp⟩
        · intro _
          rfl
      · rw [if_neg hexp]
        cases d with
        | unreadable =>
          constructor
          · intro _
            exact Or.inr ⟨mtime, .unreadable, rfl, Or.inr (Or.inl rfl)⟩
          · intro _
            rfl
        | unparsable =>
          constructor
          · intro _
            exact Or.inr ⟨mtime, .unparsable, rfl,
              Or.inr (Or.inr (Or.inl rfl))⟩
          · intro _
            rfl
        | json v =>
          dsimp only
          rcases hu : unmarshalConfig v c with ⟨c2, err⟩
          dsimp only
          constructor
          · intro hfalse
            refine Or.inr ⟨mtime, .json v, rfl,
              Or.inr (Or.inr (Or.inr ⟨v, rfl, ?_⟩))⟩
            rw [hu]
            cases err with
            | true => rfl
            | false => cases hfalse
          · intro hrhs
            rcases hrhs with h | ⟨m2, d2, heq, hcase⟩
            · cases h
            · injection heq with heq2
              injection heq2 with hm hd
              rcases hcase with h | h | h | ⟨v2, hv2, herr⟩
              · omega
              · rw [← hd] at h
                cases h
              · rw [← hd] at h
                cases h
              · rw [← hd] at hv2
                injection hv2 with hveq
                rw [← hveq, hu] at herr
                dsimp only at herr
                rw [herr]
                rfl
  · intro mtime d hfile hcase
    rw [hfile]
    rcases hcase with h | h | h
    · rw [h]
      unfold loadCache
      dsimp only
      split <;> rfl
    · rw [h]
      unfold loadCache
      dsimp only
      split <;> rfl
    · unfold loadCache
      dsimp only
      rw [if_pos h]

/-- C4 amended witness: the four absent cases at concrete inputs. -/
theorem loadCache_absent_cases_witness :
    (loadCache none 0 cInit).2 = false ∧
    loadCache (some (0, .unreadable)) 10 cInit = loadCache none 10 cInit :=
  ⟨((loadCache_absent_cases none 0 cInit).1).mpr (Or.inl rfl),
   (loadCache_absent_cases (some (0, .unreadable)) 10 cInit).2 0
     .unreadable rfl (Or.inl rfl)⟩

/-- A fresh cache file whose contents are valid JSON holding a
well-typed instance_id next to an ill-typed region. -/
def cacheBad : Option (Int × CacheData) :=
  some (0, .json (.obj [("instance_id", .str "i-0abc"),
                       ("region", .num 5)]))

/-- C4 counterexample: on a fresh but malformed (type-mismatched)
cache file, loadCache reports absent, yet the in-memory InstanceID has
been set by the decoder, so the caller skips resolution instead of
triggering it as it would for a missing file: the four absent cases
are not all treated identically by the caller, and the state is not
as if the file were missing. -/
theorem loadCache_partial_mutation :
    (loadCache cacheBad 3600 cInit).2 = false ∧
    (loadCache cacheBad 3600 cInit).1.InstanceID = "i-0abc" ∧
    (mainCacheStage cacheBad 3600 (.error ()) cInit).1 = [] ∧
    (mainCacheStage none 3600 (.error ()) cInit).1 = [.resolveCall] := by
  decide

/-- The helper exists only in a directory of the executable search
path: not in the working directory and not at any of the three
absolute candidate locations. -/
def fsPathOnly : FsEnv :=
  { files := ["/home/u/bin/session-manager-plugin"], cwd := "/tmp",
    pathDirs := ["/home/u/bin"] }

/-- C9: at the failing input `fsPathOnly` the plugin search of main.go
lines 336-341 finds nothing and the bootstrap fails with the not-found
error, because the unqualified first candidate is checked with
os.Stat, which resolves it against the working directory; resolving it
via the ambient executable search path — what the in-code comment on
main.go line 331 documents, the specification states, and
exec.Command would do at launch — does locate the helper. -/
theorem plugin_search_misses_search_path :
    findPluginPath fsPathOnly = none ∧
    lookPath fsPathOnly "session-manager-plugin" =
      some "/home/u/bin/session-manager-plugin" ∧
    (startSSMSessionWithPlugin (.ok ()) fsPathOnly true).2 =
      .error "session-manager-plugin binary not found" := by
  exact ⟨rfl, rfl, rfl⟩
